import Mathlib

/-!
Verification of the circuitrouter route-matching engine.

Shallow embedding of the source files `src/cjs/Route.js`, `src/cjs/RoutesTree.js`
and `src/cjs/Router.js`. JavaScript `Map` objects and plain objects keyed by
strings are modelled as association lists with JS `Map.set` / property-assignment
semantics: an existing key keeps its position and gets the new value, a fresh key
is appended at the end (this matches JS insertion-order iteration). The mutable
`params` object that `matchRoute` threads through its recursion is modelled by
explicit state passing: `matchRoute` returns both the JS return value and the
final state of the caller's `params` object.
-/

namespace CircuitRouter

/-- Association-list lookup, the model of JS `Map.get` / `obj[key]` /
`key in obj` (on string-keyed maps, first matching key wins; keys are unique
under `assocSet`, so this is exact). -/
def assocGet {α : Type} : List (String × α) → String → Option α
  | [], _ => none
  | (a, b) :: t, k => if a == k then some b else assocGet t k

/-- Association-list update, the model of JS `Map.set` / `obj[key] = v`:
an existing key keeps its position and is given the new value, a fresh key
is appended at the end. -/
def assocSet {α : Type} : List (String × α) → String → α → List (String × α)
  | [], k, v => [(k, v)]
  | (a, b) :: t, k, v => if a == k then (k, v) :: t else (a, b) :: assocSet t k v

/-- Bound parameters: the JS `params` object of `RoutesTree.findRoute`. -/
abbrev Params := List (String × String)

/-- A `where` condition of a route (`src/cjs/Route.js`): a RegExp (modelled as
the boolean test it induces on strings, since `validateWheres` only ever calls
`condition.test(value)`), an array of allowed values, or a predicate function. -/
inductive Where where
  | regex (test : String → Bool)
  | list (allowed : List String)
  | func (f : String → Bool)

/-- The fields of `Route` (`src/cjs/Route.js`) that the matching engine reads:
the normalized `uri` and the `wheres` map. `rid` is an identity tag used to
state which route a lookup returned (JS compares routes by object identity);
the `action` and `middlewares` fields are modelled separately in the dispatch
pipeline, keyed by `rid`. -/
structure Route where
  rid : Nat
  uri : String
  wheres : List (String × Where)

/-- A trie node (`RouteNode` in `src/cjs/index.d.ts`): a `Map` from segment
string to child node, plus an optional terminal route. -/
inductive Node where
  | mk : List (String × Node) → Option Route → Node

def Node.children : Node → List (String × Node)
  | .mk c _ => c

def Node.route : Node → Option Route
  | .mk _ r => r

/-- `{ children: new Map() }` -/
def emptyNode : Node := .mk [] none

/-- Character-level model of `` `/${uri}`.replace(/\/+/g, '/') `` restricted to
the collapsing step: every run of consecutive slashes becomes a single slash. -/
def collapseSlashes : List Char → List Char
  | [] => []
  | [c] => [c]
  | a :: b :: rest =>
    if a == '/' && b == '/' then collapseSlashes (b :: rest)
    else a :: collapseSlashes (b :: rest)

/-- Model of `.replace(/\/$/, '')`: remove the final character when it is a
slash, keep everything else. -/
def stripTrailingSlash : List Char → List Char
  | [] => []
  | [c] => if c == '/' then [] else [c]
  | a :: b :: rest => a :: stripTrailingSlash (b :: rest)

/-- Whether the final character is a slash. -/
def endsWithSlash : List Char → Bool
  | [] => false
  | [c] => c == '/'
  | _ :: b :: rest => endsWithSlash (b :: rest)

/-- `Route.normalizeUri` (`src/cjs/Route.js` line 36):
`` return `/${uri}`.replace(/\/+/g, '/').replace(/\/$/, ''); `` -/
def normalizeUri (uri : String) : String :=
  String.mk (stripTrailingSlash (collapseSlashes ('/' :: uri.data)))

/-- The `Route` constructor stores `this.uri = this.normalizeUri(uri)`;
`wheres` is filled by `where()` calls before serving starts. -/
def mkRoute (rid : Nat) (uri : String) (wheres : List (String × Where)) : Route :=
  { rid := rid, uri := normalizeUri uri, wheres := wheres }

/-- Character-level model of JS `String.prototype.split` with a one-character
separator. `"".split(sep)` is `[""]`. -/
def splitOnChar (sep : Char) : List Char → List (List Char)
  | [] => [[]]
  | c :: rest =>
    let r := splitOnChar sep rest
    if c == sep then [] :: r
    else
      match r with
      | [] => [[c]]
      | s :: ss => (c :: s) :: ss

/-- `url.split('/').filter(Boolean)`: the non-empty slash-separated segments. -/
def splitParts (s : String) : List String :=
  ((splitOnChar '/' s.data).map (fun l => String.mk l)).filter (fun x => !(x == ""))

/-- JS `array.join('/')`. -/
def joinSlash : List String → String
  | [] => ""
  | [s] => s
  | s :: rest => s ++ "/" ++ joinSlash rest

/-- `key.startsWith(':')` on a segment key. -/
def keyIsParam (key : String) : Bool :=
  match key.data with
  | [] => false
  | c :: _ => c == ':'

/-- `paramKey.slice(1)`: the parameter name with the sigil removed. -/
def dropSigil (key : String) : String :=
  String.mk (key.data.drop 1)

/-- `Array.from(node.children.entries()).find(([key]) => key.startsWith(':'))`:
the first child, in insertion order, whose key begins with the parameter sigil. -/
def findParamChild (node : Node) : Option (String × Node) :=
  node.children.find? (fun p => keyIsParam p.1)

/-- `RoutesTree.validateWheres` (`src/cjs/RoutesTree.js` lines 72-88): iterate
the route's `wheres` in insertion order; keys absent from `params` are skipped;
the first constrained key present in `params` is tested and its result is
returned immediately (the loop body ends in `return`); with no applicable
condition the result is `true`. -/
def validateWheresGo (params : Params) : List (String × Where) → Bool
  | [] => true
  | (key, condition) :: restW =>
    match assocGet params key with
    | none => validateWheresGo params restW
    | some value =>
      match condition with
      | .regex test => test value
      | .list allowed => allowed.contains value
      | .func f => f value

def validateWheres (route : Route) (params : Params) : Bool :=
  validateWheresGo params route.wheres

/-- The wildcard block of `matchRoute` (`src/cjs/RoutesTree.js` lines 55-63).
The source's recursive call `this.matchRoute(wildcardNode, [], remainingParams)`
is made with an empty segment list, so it immediately hits `matchRoute`'s base
case; that base case is inlined here (`wnode.route` consulted directly), which
keeps `matchRoute` itself structurally recursive on the segment list.
`remainingParams` is a copy (`{...params}`), so the ambient `params` state is
returned unchanged. -/
def wildcardLookup (node : Node) (part : String) (rest : List String) (ps : Params) :
    Option (Route × Params) × Params :=
  match assocGet node.children "*" with
  | some wnode =>
    let remainingParams := assocSet ps "*" (joinSlash (part :: rest))
    match wnode.route with
    | some r => (some (r, remainingParams), ps)
    | none => (none, ps)
  | none => (none, ps)

/-- `RoutesTree.matchRoute` (`src/cjs/RoutesTree.js` lines 32-65). The first
component is the JS return value (`{route, params}` or `null`); the second is
the state of the caller's mutable `params` object when the call returns. On the
exact branch, `if (exactMatch) return exactMatch` returns only a non-null
result, otherwise control falls through to the parameter branch; a parameter
binding is written into the shared `params` object and is never removed, even
when the branch fails or validation rejects it. -/
def matchRoute (node : Node) (parts : List String) (params : Params) :
    Option (Route × Params) × Params :=
  match parts with
  | [] => ((node.route).map (fun r => (r, params)), params)
  | part :: rest =>
    let exactStep :=
      match assocGet node.children part with
      | some child => matchRoute child rest params
      | none => ((none : Option (Route × Params)), params)
    match exactStep.1 with
    | some m => (some m, exactStep.2)
    | none =>
      let ps1 := exactStep.2
      match findParamChild node with
      | some pc =>
        let ps2 := assocSet ps1 (dropSigil pc.1) part
        let paramStep := matchRoute pc.2 rest ps2
        match paramStep.1 with
        | some m =>
          if validateWheres m.1 paramStep.2 then (some m, paramStep.2)
          else (none, paramStep.2)
        | none => wildcardLookup node part rest paramStep.2
      | none => wildcardLookup node part rest ps1

/-- `RoutesTree.findRoute` (`src/cjs/RoutesTree.js` lines 23-31). The trie root
holds one child per HTTP method; `params` starts as a fresh empty object. -/
def findRoute (root : Node) (method url : String) : Option (Route × Params) :=
  match assocGet root.children method with
  | none => none
  | some methodNode => (matchRoute methodNode (splitParts url) []).1

/-- The per-method body of `RoutesTree.addRoute` (`src/cjs/RoutesTree.js` lines
9-20): walk the pattern's segments, creating missing children as it goes (the
created nodes stay in the trie even when the terminal check then fails), and
bind the route at the terminal node unless one is already bound there, in which
case report the duplicate (the `Bool` component; JS throws). -/
def addToNode (node : Node) (parts : List String) (route : Route) : Node × Bool :=
  match parts with
  | [] =>
    match node.route with
    | some _ => (node, true)
    | none => (Node.mk node.children (some route), false)
  | p :: rest =>
    let child := (assocGet node.children p).getD emptyNode
    let res := addToNode child rest route
    (Node.mk (assocSet node.children p res.1) node.route, res.2)

/-- `RoutesTree.addRoute` (`src/cjs/RoutesTree.js` lines 7-22): iterate the
methods in order; `findOrCreateMethodNode` installs the method's sub-trie into
the root; the first duplicate throws (the `Option String` component carries the
error message), leaving all earlier methods' insertions, and the failing
method's freshly created nodes, in place. -/
def addRoute (root : Node) (route : Route) : List String → Node × Option String
  | [] => (root, none)
  | m :: ms =>
    let mnode := (assocGet root.children m).getD emptyNode
    let res := addToNode mnode (splitParts route.uri) route
    let root2 : Node := Node.mk (assocSet root.children m res.1) root.route
    if res.2 then (root2, some ("Route already exists for " ++ m ++ " " ++ route.uri))
    else addRoute root2 route ms

/-- Successful registration, discarding the error component. -/
def addRouteOk (t : Node) (r : Route) (ms : List String) : Node :=
  (addRoute t r ms).1

/-- Structural read of the trie along literal segment keys, returning the node
reached (the walk `addRoute` performs). Used to state where a route is bound. -/
def childAt (n : Node) : List String → Option Node
  | [] => some n
  | k :: ks =>
    match assocGet n.children k with
    | some c => childAt c ks
    | none => none

/-- The route bound at the end of a literal segment walk. -/
def getAt (n : Node) : List String → Option Route
  | [] => n.route
  | k :: ks =>
    match assocGet n.children k with
    | some c => getAt c ks
    | none => none

/-- Adjacent-slash freedom: no two consecutive characters are both `'/'`. -/
def noDup2 : List Char → Bool
  | [] => true
  | [_] => true
  | a :: b :: rest => !(a == '/' && b == '/') && noDup2 (b :: rest)

/-- Outcome of one middleware / handler / hook callback: it either completes
normally or raises. -/
inductive Beh where
  | ok
  | raise
deriving DecidableEq

/-- Which of the three per-request outcomes were observed while one request
went through `Router.onRequest`. -/
structure Trace where
  handlerCompleted : Bool
  notFoundRan : Bool
  errorRan : Bool
deriving DecidableEq

/-- `await middleware(req, res)` in sequence: `true` iff every callback in the
list completes without raising (execution stops at the first raise). -/
def allOk : List Beh → Bool
  | [] => true
  | .ok :: rest => allOk rest
  | .raise :: _ => false

/-- Invoking `this.notFoundHandler` inside the `try` block: the hook runs; if
it raises, the `catch` invokes the error hook as well. -/
def runNotFound : Beh → Trace
  | .ok => Trace.mk false true false
  | .raise => Trace.mk false true true

/-- `req.url.split('?')[0]`. -/
def stripQuery (url : String) : String :=
  String.mk ((splitOnChar '?' url.data).headD [])

/-- `Router.onRequest` (`src/cjs/Router.js` lines 11-35), abstracted to the
outcome trace. `hasUrlAndMethod` models the `!req.url || !req.method` guard;
`globals` the global middleware chain's behaviours; `routeMws` and `action`
give the matched route's middleware behaviours and handler behaviour, keyed by
the route's `rid`; `notFoundBeh` the installed not-found hook's behaviour. Any
raise inside the `try` block funnels to the error hook via the `catch`. -/
def onRequestTrace (hasUrlAndMethod : Bool) (globals : List Beh) (tree : Node)
    (method url : String) (routeMws : Nat → List Beh) (action : Nat → Beh)
    (notFoundBeh : Beh) : Trace :=
  if hasUrlAndMethod = false then runNotFound notFoundBeh
  else if allOk globals = false then Trace.mk false false true
  else
    match findRoute tree method (stripQuery url) with
    | none => runNotFound notFoundBeh
    | some m =>
      if allOk (routeMws m.1.rid) = false then Trace.mk false false true
      else
        match action m.1.rid with
        | Beh.ok => Trace.mk true false false
        | Beh.raise => Trace.mk false false true

/-- Exactly one of the three dispatch outcomes was observed. -/
def exactlyOneOutcome (t : Trace) : Bool :=
  (t.handlerCompleted && !t.notFoundRan && !t.errorRan) ||
  (!t.handlerCompleted && t.notFoundRan && !t.errorRan) ||
  (!t.handlerCompleted && !t.notFoundRan && t.errorRan)

/-! Concrete routes and tries used to settle the claims on explicit inputs.
Each trie is built through `addRoute`, exactly as `Router.createRoute` does. -/

def rAB : Route := mkRoute 1 "/a/b" []

def rAXC : Route := mkRoute 2 "/a/:x/c" []

def treeC1 : Node := addRouteOk (addRouteOk emptyNode rAB ["GET"]) rAXC ["GET"]

def rAW : Route := mkRoute 3 "/a/*" []

def treeC1w : Node := addRouteOk (addRouteOk emptyNode rAB ["GET"]) rAW ["GET"]

def rAQEnd : Route := mkRoute 4 "/a/:q/end" []

def rRB : Route := mkRoute 5 "/:r/b" []

def treeC3 : Node := addRouteOk (addRouteOk emptyNode rAQEnd ["GET"]) rRB ["GET"]

def rPID : Route := mkRoute 6 "/product/:id" []

def treeC3b : Node := addRouteOk emptyNode rPID ["GET"]

def rAWX : Route := mkRoute 7 "/a/*/x" []

def treeC3c : Node := addRouteOk (addRouteOk emptyNode rAWX ["GET"]) rRB ["GET"]

def rUID : Route := mkRoute 8 "/users/:id" []

def rUME : Route := mkRoute 9 "/users/me" []

def treeC5a : Node := addRouteOk (addRouteOk emptyNode rUID ["GET"]) rUME ["GET"]

def treeC5b : Node := addRouteOk (addRouteOk emptyNode rUME ["GET"]) rUID ["GET"]

def rFW : Route := mkRoute 10 "/files/*" []

def treeC6a : Node := addRouteOk emptyNode rFW ["GET"]

def rFWX : Route := mkRoute 11 "/files/*/x" []

def treeC6b : Node := addRouteOk emptyNode rFWX ["GET"]

def rFEx : Route := mkRoute 12 "/files/ex" []

def rFP : Route := mkRoute 13 "/files/:p" []

def treeC6c : Node :=
  addRouteOk (addRouteOk (addRouteOk emptyNode rFEx ["GET"]) rFP ["GET"]) rFW ["GET"]

def rStatus : Route :=
  mkRoute 14 "/status/:level" [("level", Where.list ["low", "medium", "high"])]

def treeC7a : Node := addRouteOk emptyNode rStatus ["GET"]

def rABwheres : Route :=
  mkRoute 15 "/:a/:b" [("a", Where.list ["good"]), ("b", Where.list ["fine"])]

def treeC7b : Node := addRouteOk emptyNode rABwheres ["GET"]

def rPOk : Route := mkRoute 16 "/:p" [("p", Where.list ["ok"])]

def rStar : Route := mkRoute 17 "/*" []

def treeC7c : Node := addRouteOk (addRouteOk emptyNode rPOk ["GET"]) rStar ["GET"]

def rW9a : Route := mkRoute 18 "/w" []

def rW9b : Route := mkRoute 19 "/w" []

def rW8a : Route := mkRoute 20 "/users/:id" []

def rW8b : Route := mkRoute 21 "/users/:id" []

def rW8c : Route := mkRoute 22 "/users/:id" []

def treeC10 : Node := addRouteOk emptyNode (mkRoute 23 "/a/b" []) ["GET"]

/-! Helper lemmas about the association-list model and registration. -/

theorem emptyNode_children : emptyNode.children = [] := rfl

theorem emptyNode_route : emptyNode.route = none := rfl

theorem assocGet_assocSet_self {α : Type} (l : List (String × α)) (k : String) (v : α) :
    assocGet (assocSet l k v) k = some v := by
  induction l with
  | nil => simp [assocSet, assocGet]
  | cons hd t ih =>
    obtain ⟨a, b⟩ := hd
    cases hak : (a == k) with
    | true => simp [assocSet, assocGet, hak]
    | false => simp [assocSet, assocGet, hak, ih]

theorem assocGet_assocSet_ne {α : Type} (l : List (String × α)) (k k2 : String) (v : α)
    (h : k ≠ k2) : assocGet (assocSet l k v) k2 = assocGet l k2 := by
  induction l with
  | nil => simp [assocSet, assocGet, beq_iff_eq, h]
  | cons hd t ih =>
    obtain ⟨a, b⟩ := hd
    cases hak : (a == k) with
    | true =>
      have hae : a = k := by simpa [beq_iff_eq] using hak
      simp [assocSet, assocGet, hak, beq_iff_eq, h, hae]
    | false => simp [assocSet, assocGet, hak, ih]

theorem addToNode_empty_ok (parts : List String) (r : Route) :
    (addToNode emptyNode parts r).2 = false := by
  induction parts with
  | nil => rfl
  | cons p rest ih => simpa [addToNode, emptyNode, assocGet, Node.children] using ih

theorem addToNode_dup_errors (parts : List String) (n : Node) (r r2 : Route)
    (h : (addToNode n parts r).2 = false) :
    (addToNode (addToNode n parts r).1 parts r2).2 = true := by
  induction parts generalizing n with
  | nil =>
    obtain ⟨ch, rt⟩ := n
    cases rt with
    | some q => simp [addToNode, Node.route] at h
    | none => simp [addToNode, Node.route, Node.children]
  | cons p rest ih =>
    obtain ⟨ch, rt⟩ := n
    simp only [addToNode, Node.children] at h ⊢
    rw [assocGet_assocSet_self]
    simpa using ih ((assocGet ch p).getD emptyNode) (by simpa using h)

theorem addToNode_getAt (parts : List String) (n : Node) (r : Route)
    (h : (addToNode n parts r).2 = false) :
    getAt (addToNode n parts r).1 parts = some r := by
  induction parts generalizing n with
  | nil =>
    obtain ⟨ch, rt⟩ := n
    cases rt with
    | some q => simp [addToNode, Node.route] at h
    | none => simp [addToNode, Node.route, getAt]
  | cons p rest ih =>
    obtain ⟨ch, rt⟩ := n
    simp only [addToNode, Node.children] at h ⊢
    simp only [getAt, Node.children]
    rw [assocGet_assocSet_self]
    exact ih ((assocGet ch p).getD emptyNode) (by simpa using h)

/-! Lemmas about `normalizeUri`: the collapsing pass leaves no adjacent
slashes, the stripping pass removes the trailing slash, and a string with
neither adjacent nor trailing slashes is a fixed point of both passes. -/

theorem noDup2_cons_cons (a b : Char) (rest : List Char)
    (h : noDup2 (a :: b :: rest) = true) :
    (a == '/' && b == '/') = false ∧ noDup2 (b :: rest) = true := by
  cases hv : (a == '/' && b == '/') with
  | true =>
    exfalso
    have hh : (!(a == '/' && b == '/') && noDup2 (b :: rest)) = true := h
    rw [hv] at hh
    simp at hh
  | false =>
    have hh : (!(a == '/' && b == '/') && noDup2 (b :: rest)) = true := h
    rw [hv] at hh
    simpa using hh

theorem collapse_cons (rest : List Char) :
    ∀ b : Char, ∃ t, collapseSlashes (b :: rest) = b :: t := by
  induction rest with
  | nil => exact fun b => ⟨[], rfl⟩
  | cons r rs ih =>
    intro b
    cases hb : (b == '/' && r == '/') with
    | true =>
      obtain ⟨hb1, hb2⟩ : b = '/' ∧ r = '/' := by
        simpa [Bool.and_eq_true, beq_iff_eq] using hb
      obtain ⟨t, ht⟩ := ih r
      refine ⟨t, ?_⟩
      rw [show collapseSlashes (b :: r :: rs) = collapseSlashes (r :: rs) by
        simp [collapseSlashes, hb], ht, hb1, hb2]
    | false => exact ⟨collapseSlashes (r :: rs), by simp [collapseSlashes, hb]⟩

theorem collapse_noDup2 (l : List Char) : noDup2 (collapseSlashes l) = true := by
  induction l with
  | nil => rfl
  | cons a t ih =>
    cases t with
    | nil => rfl
    | cons b rest =>
      cases hab : (a == '/' && b == '/') with
      | true =>
        rw [show collapseSlashes (a :: b :: rest) = collapseSlashes (b :: rest) by
          simp [collapseSlashes, hab]]
        exact ih
      | false =>
        obtain ⟨t2, ht2⟩ := collapse_cons rest b
        rw [show collapseSlashes (a :: b :: rest) = a :: collapseSlashes (b :: rest) by
          simp [collapseSlashes, hab], ht2]
        rw [ht2] at ih
        simp [noDup2, hab, ih]

theorem collapse_fixed (l : List Char) (h : noDup2 l = true) : collapseSlashes l = l := by
  induction l with
  | nil => rfl
  | cons a t ih =>
    cases t with
    | nil => rfl
    | cons b rest =>
      have h2 := noDup2_cons_cons a b rest h
      simp [collapseSlashes, h2.1, ih h2.2]

theorem strip_cons (b : Char) (rest : List Char) :
    stripTrailingSlash (b :: rest) = [] ∨
      ∃ t, stripTrailingSlash (b :: rest) = b :: t := by
  cases rest with
  | nil =>
    cases hb : (b == '/') with
    | true => left; simp [stripTrailingSlash, hb]
    | false => right; exact ⟨[], by simp [stripTrailingSlash, hb]⟩
  | cons r rs => right; exact ⟨stripTrailingSlash (r :: rs), rfl⟩

theorem strip_noDup2 (l : List Char) (h : noDup2 l = true) :
    noDup2 (stripTrailingSlash l) = true := by
  induction l with
  | nil => rfl
  | cons a t ih =>
    cases t with
    | nil => cases hc : (a == '/') <;> simp [stripTrailingSlash, hc, noDup2]
    | cons b rest =>
      have h2 := noDup2_cons_cons a b rest h
      have ihs := ih h2.2
      rcases strip_cons b rest with h0 | ⟨t2, ht2⟩
      · simp [stripTrailingSlash, h0, noDup2]
      · rw [show stripTrailingSlash (a :: b :: rest) =
            a :: stripTrailingSlash (b :: rest) from rfl, ht2]
        rw [ht2] at ihs
        simp [noDup2, h2.1, ihs]

theorem strip_not_ends (l : List Char) (h : noDup2 l = true) :
    endsWithSlash (stripTrailingSlash l) = false := by
  induction l with
  | nil => rfl
  | cons a t ih =>
    cases t with
    | nil => cases hc : (a == '/') <;> simp [stripTrailingSlash, hc, endsWithSlash]
    | cons b rest =>
      have h2 := noDup2_cons_cons a b rest h
      have ihs := ih h2.2
      cases rest with
      | nil =>
        cases hb : (b == '/') with
        | true =>
          have ha : (a == '/') = false := by simpa [hb] using h2.1
          simp [stripTrailingSlash, hb, endsWithSlash, ha]
        | false => simp [stripTrailingSlash, hb, endsWithSlash]
      | cons r rs =>
        rw [show stripTrailingSlash (a :: b :: r :: rs) =
            a :: stripTrailingSlash (b :: r :: rs) from rfl]
        rw [show stripTrailingSlash (b :: r :: rs) =
            b :: stripTrailingSlash (r :: rs) from rfl] at ihs ⊢
        simpa [endsWithSlash] using ihs

theorem strip_of_not_ends (l : List Char) (h : endsWithSlash l = false) :
    stripTrailingSlash l = l := by
  induction l with
  | nil => rfl
  | cons a t ih =>
    cases t with
    | nil =>
      have ha : (a == '/') = false := by simpa [endsWithSlash] using h
      simp [stripTrailingSlash, ha]
    | cons b rest =>
      have h2 : endsWithSlash (b :: rest) = false := by
        simpa [endsWithSlash] using h
      rw [show stripTrailingSlash (a :: b :: rest) =
          a :: stripTrailingSlash (b :: rest) from rfl, ih h2]

theorem strip_collapse_idem (l : List Char) :
    stripTrailingSlash (collapseSlashes ('/' ::
      stripTrailingSlash (collapseSlashes ('/' :: l)))) =
    stripTrailingSlash (collapseSlashes ('/' :: l)) := by
  have hnd : noDup2 (collapseSlashes ('/' :: l)) = true := collapse_noDup2 _
  have hrnd : noDup2 (stripTrailingSlash (collapseSlashes ('/' :: l))) = true :=
    strip_noDup2 _ hnd
  have hrne : endsWithSlash (stripTrailingSlash (collapseSlashes ('/' :: l))) = false :=
    strip_not_ends _ hnd
  obtain ⟨t, ht⟩ := collapse_cons l '/'
  rw [ht] at hrnd hrne ⊢
  rcases strip_cons '/' t with h0 | ⟨t2, h2⟩
  · rw [h0]; rfl
  · rw [h2] at hrnd hrne ⊢
    have hcc : collapseSlashes ('/' :: '/' :: t2) = collapseSlashes ('/' :: t2) := by
      simp [collapseSlashes]
    rw [hcc, collapse_fixed _ hrnd, strip_of_not_ends _ hrne]

theorem normalizeUri_idem (p : String) :
    normalizeUri (normalizeUri p) = normalizeUri p := by
  unfold normalizeUri
  exact congrArg String.mk (strip_collapse_idem p.data)

theorem normalizeUri_head (p : String) :
    normalizeUri p = "" ∨ (normalizeUri p).data.head? = some '/' := by
  unfold normalizeUri
  obtain ⟨t, ht⟩ := collapse_cons p.data '/'
  rw [ht]
  rcases strip_cons '/' t with h0 | ⟨t2, h2⟩
  · left; rw [h0]
  · right; rw [h2]; rfl

/-- C2 counterexample. The claim asserts the root path `/` stays `/` under
normalization. But `normalizeUri` first turns `"/"` into `"//"` by prefixing,
collapses that to `"/"`, and then the trailing-slash strip removes it: the
result is the empty string, not `"/"`. -/
theorem c2_counterexample : normalizeUri "/" ≠ "/" ∧ normalizeUri "/" = "" := by
  refine ⟨by decide, by decide⟩

/-- C2 amended: `normalizeUri` prefixes a leading `/`, collapses every run of
consecutive `/` into one (the result never contains two adjacent slashes),
and strips the trailing `/` — but the root path `/` becomes the empty string
`""` rather than staying `/`. It is idempotent for every path string, the
result never ends in `/`, and every non-empty result starts with `/`; in
particular `normalizeUri "//a//b/" = "/a/b"`. -/
theorem c2_amended :
    (∀ p : String, normalizeUri (normalizeUri p) = normalizeUri p)
    ∧ normalizeUri "//a//b/" = "/a/b"
    ∧ normalizeUri "/" = ""
    ∧ (∀ p : String, noDup2 (normalizeUri p).data = true)
    ∧ (∀ p : String, endsWithSlash (normalizeUri p).data = false)
    ∧ (∀ p : String, normalizeUri p = "" ∨ (normalizeUri p).data.head? = some '/') := by
  refine ⟨normalizeUri_idem, by decide, by decide, ?_, ?_, normalizeUri_head⟩
  · intro p; exact strip_noDup2 _ (collapse_noDup2 _)
  · intro p; exact strip_not_ends _ (collapse_noDup2 _)

/-- C1 counterexample. The claim asserts that when a node has an exact-literal
child for the current segment and the recursion beneath that child fails, the
failure is returned directly without trying the parameter or wildcard children.
In the trie holding `/a/b` and `/a/:x/c` for GET, the lookup of `/a/b/c` finds
the exact child `b` under `a`, the recursion beneath `b` on `["c"]` fails, and
yet `findRoute` returns the `/a/:x/c` route with `x` bound to `"b"` — the
algorithm fell back to the parameter child, contradicting the claim (which
would require the overall result to be "no match"). -/
theorem c1_counterexample :
    ((childAt treeC1 ["GET", "a"]).bind (fun n => assocGet n.children "b")).isSome = true
    ∧ ((childAt treeC1 ["GET", "a", "b"]).map (fun n => (matchRoute n ["c"] []).1.isNone))
        = some true
    ∧ (findRoute treeC1 "GET" "/a/b/c").map (fun m => (m.1.rid, m.2))
        = some (2, [("x", "b")]) := by
  refine ⟨by decide, by decide, by decide⟩

/-- C1 amended: when the recursive match beneath the exact-literal child fails
to reach a terminal route, the traversal falls back to trying the parameter
child and then the wildcard child at that same node. Demonstrated on the trie
with `/a/b` and `/a/:x/c` (parameter fallback: `/a/b/c` resolves to the
parameter route) and the trie with `/a/b` and `/a/*` (wildcard fallback:
`/a/b/c` resolves to the wildcard route with `*` bound to `"b/c"`); in both
tries the exact child `b` exists and its recursion on `["c"]` fails. -/
theorem c1_amended :
    ((childAt treeC1 ["GET", "a", "b"]).map (fun n => (matchRoute n ["c"] []).1.isNone))
        = some true
    ∧ (findRoute treeC1 "GET" "/a/b/c").map (fun m => (m.1.rid, m.2))
        = some (2, [("x", "b")])
    ∧ ((childAt treeC1w ["GET", "a", "b"]).map (fun n => (matchRoute n ["c"] []).1.isNone))
        = some true
    ∧ (findRoute treeC1w "GET" "/a/b/c").map (fun m => (m.1.rid, m.2))
        = some (3, [("*", "b/c")]) := by
  refine ⟨by decide, by decide, by decide, by decide⟩

/-- C3 counterexample. The claim asserts the returned `params` is exactly the
bindings made along the successful path. In the trie holding `/a/:q/end` and
`/:r/b` for GET, the lookup of `/a/b` succeeds via `/:r/b`, whose path binds
only `r := "a"`; but the returned mapping also contains `q := "b"`, a binding
written by the failed exact branch beneath `a` (the shared mutable `params`
object is never rolled back). -/
theorem c3_counterexample :
    (findRoute treeC3 "GET" "/a/b").map (fun m => (m.1.rid, m.2))
        = some (5, [("q", "b"), ("r", "a")])
    ∧ (findRoute treeC3 "GET" "/a/b").map (fun m => assocGet m.2 "q")
        = some (some "b") := by
  refine ⟨by decide, by decide⟩

/-- C3 amended: for a successful `findRoute`, the returned `params` contains
the bindings of the named-parameter segments traversed on the successful path
(plus `*` when a wildcard was taken), but it may additionally retain bindings
written during previously attempted branches that failed — the `params` object
is shared across the exact and parameter branches and never rolled back. Only
the wildcard branch operates on a copy, so bindings made under a failed
wildcard attempt do not leak out. Demonstrated by: the polluted result for
`/a/b` against `/a/:q/end` + `/:r/b`; the clean binding `id := "42"` for
`/product/42` against `/product/:id` (no failed binding branch attempted); and
the absence of a stale `*` key for `/a/b` against `/a/*/x` + `/:r/b`, where a
wildcard attempt beneath the failed exact branch bound `*` only in its copy. -/
theorem c3_amended :
    (findRoute treeC3 "GET" "/a/b").map (fun m => (m.1.rid, m.2))
        = some (5, [("q", "b"), ("r", "a")])
    ∧ (findRoute treeC3b "GET" "/product/42").map (fun m => (m.1.rid, m.2))
        = some (6, [("id", "42")])
    ∧ (findRoute treeC3c "GET" "/a/b").map (fun m => (m.1.rid, m.2))
        = some (5, [("r", "a")])
    ∧ (findRoute treeC3c "GET" "/a/b").map (fun m => assocGet m.2 "*")
        = some none := by
  refine ⟨by decide, by decide, by decide, by decide⟩

/-- C5: exact-literal children take precedence over parameter children. With
`/users/:id` and `/users/me` both registered for GET — in either registration
order — `findRoute "GET" "/users/me"` resolves to the literal `/users/me`
route with an empty parameter mapping (in particular no `id` binding). -/
theorem c5_exact_over_param :
    (findRoute treeC5a "GET" "/users/me").map (fun m => (m.1.rid, m.2)) = some (9, [])
    ∧ (findRoute treeC5b "GET" "/users/me").map (fun m => (m.1.rid, m.2)) = some (9, []) := by
  refine ⟨by decide, by decide⟩

/-- C6: wildcard behaviour. `/files/*` matched against `/files/a/b/c` binds
`*` to `"a/b/c"` (the current segment plus all unconsumed segments joined by
`/`). The wildcard consumes the rest of the path unconditionally: with
`/files/*/x` registered, `/files/a/x` does not match, because nothing is
matched past a wildcard (the wildcard child's own terminal is consulted
directly). With `/files/ex`, `/files/:p` and `/files/*` all registered, the
exact route wins for `/files/ex`, the parameter route wins for `/files/q`
(wildcard untried, no `*` binding), and the wildcard is used only when both
fail, as for the two-segment path `/files/a/b`. -/
theorem c6_wildcard :
    (findRoute treeC6a "GET" "/files/a/b/c").map (fun m => (m.1.rid, m.2))
        = some (10, [("*", "a/b/c")])
    ∧ (findRoute treeC6b "GET" "/files/a/x").isNone = true
    ∧ (findRoute treeC6c "GET" "/files/ex").map (fun m => (m.1.rid, m.2))
        = some (12, [])
    ∧ (findRoute treeC6c "GET" "/files/q").map
        (fun m => (m.1.rid, assocGet m.2 "p", assocGet m.2 "*"))
        = some (13, some "q", none)
    ∧ (findRoute treeC6c "GET" "/files/a/b").map (fun m => (m.1.rid, assocGet m.2 "*"))
        = some (10, some "a/b") := by
  refine ⟨by decide, by decide, by decide, by decide, by decide⟩

/-- C7 counterexample. The claim asserts that when a parameter branch reaches a
terminal route, exactly the just-bound parameter is validated against that
route's constraint for that name. For the route `/:a/:b` with constraints
`a ∈ ["good"]` and `b ∈ ["fine"]`, the lookup of `/good/bad` reaches the
terminal after binding `b := "bad"`, whose constraint excludes `"bad"` — the
claim requires rejection — yet the match succeeds, because `validateWheres`
tests only the first constrained key present in the accumulated params (here
`a`) and returns immediately. -/
theorem c7_counterexample :
    (findRoute treeC7b "GET" "/good/bad").map (fun m => (m.1.rid, m.2))
        = some (15, [("a", "good"), ("b", "bad")])
    ∧ (["fine"].contains "bad") = false := by
  refine ⟨by decide, by decide⟩

/-- C7 amended: when a parameter-match branch reaches a terminal route, the
route's `wheres` are scanned in insertion order and only the first constrained
name present in the accumulated params is tested — its single test result
decides the validation (a RegExp rule must pass its test, an allowed-value-set
rule must contain the value, a predicate rule must return true); constraints on
later names are not checked. A failing test rejects the parameter match at that
site without falling back to the wildcard child. In particular `/status/:level`
constrained to `["low","medium","high"]` matches `/status/low` and resolves to
not-found for `/status/critical`; `/:a/:b` with constraints on both `a` and `b`
accepts `/good/bad` because only `a` is tested; and with `/:p` constrained to
`["ok"]` plus a `/*` route, `/bad` yields not-found (the rejected parameter
match short-circuits, the wildcard is not tried) while `/ok` matches. -/
theorem c7_amended :
    (findRoute treeC7a "GET" "/status/low").map (fun m => (m.1.rid, m.2))
        = some (14, [("level", "low")])
    ∧ (findRoute treeC7a "GET" "/status/critical").isNone = true
    ∧ (findRoute treeC7b "GET" "/good/bad").map (fun m => (m.1.rid, m.2))
        = some (15, [("a", "good"), ("b", "bad")])
    ∧ (findRoute treeC7c "GET" "/bad").isNone = true
    ∧ (findRoute treeC7c "GET" "/ok").map (fun m => (m.1.rid, m.2))
        = some (16, [("p", "ok")]) := by
  refine ⟨by decide, by decide, by decide, by decide, by decide⟩

/-- C8: per-method pattern uniqueness. Registering a route for a fresh method
in an empty engine succeeds; registering a second route with the identical
pattern for the same method fails with the duplicate-route error; registering a
third route with the same pattern under a different method succeeds. -/
theorem c8_registration_uniqueness (m m2 : String) (r1 r2 r3 : Route)
    (hm : m ≠ m2) (h2 : r2.uri = r1.uri) (_h3 : r3.uri = r1.uri) :
    (addRoute emptyNode r1 [m]).2 = none
    ∧ ((addRoute (addRoute emptyNode r1 [m]).1 r2 [m]).2).isSome = true
    ∧ (addRoute (addRoute emptyNode r1 [m]).1 r3 [m2]).2 = none := by
  have hres1 : (addToNode emptyNode (splitParts r1.uri) r1).2 = false :=
    addToNode_empty_ok _ _
  have hstep1 : addRoute emptyNode r1 [m] =
      (Node.mk [(m, (addToNode emptyNode (splitParts r1.uri) r1).1)] none, none) := by
    simp [addRoute, emptyNode_children, emptyNode_route, assocGet, assocSet, hres1]
  refine ⟨by rw [hstep1], ?_, ?_⟩
  · rw [hstep1]
    have hdup : (addToNode (addToNode emptyNode (splitParts r1.uri) r1).1
        (splitParts r1.uri) r2).2 = true := addToNode_dup_errors _ _ _ _ hres1
    simp [addRoute, assocGet, Node.children, h2, hdup]
  · rw [hstep1]
    have hok := addToNode_empty_ok (splitParts r3.uri) r3
    have hne : (m == m2) = false := beq_eq_false_iff_ne.mpr hm
    simp [addRoute, assocGet, assocSet, Node.children, Node.route, hne, hok]

/-- C8 witness: the general uniqueness theorem applied at the concrete pattern
`/users/:id` with methods GET and POST. -/
theorem c8_registration_uniqueness_witness :
    (addRoute emptyNode rW8a ["GET"]).2 = none
    ∧ ((addRoute (addRoute emptyNode rW8a ["GET"]).1 rW8b ["GET"]).2).isSome = true
    ∧ (addRoute (addRoute emptyNode rW8a ["GET"]).1 rW8c ["POST"]).2 = none :=
  c8_registration_uniqueness "GET" "POST" rW8a rW8b rW8c (by decide) rfl rfl

/-- C9: `addRoute` is not atomic across its methods list. Starting from an
engine that already holds `rOld` for method `m2`, registering `rNew` with the
identical pattern for `[m1, m2]` throws the duplicate error on the `m2` step,
yet `rNew` remains bound at the pattern's terminal node inside `m1`'s sub-trie
of the resulting tree — the insertion made for the earlier method is not
rolled back. -/
theorem c9_addRoute_not_atomic (m1 m2 : String) (rOld rNew : Route)
    (hm : m1 ≠ m2) (h2 : rNew.uri = rOld.uri) :
    ((addRoute (addRoute emptyNode rOld [m2]).1 rNew [m1, m2]).2).isSome = true
    ∧ (assocGet ((addRoute (addRoute emptyNode rOld [m2]).1 rNew [m1, m2]).1).children m1).map
        (fun n => getAt n (splitParts rNew.uri)) = some (some rNew) := by
  have hres0 : (addToNode emptyNode (splitParts rOld.uri) rOld).2 = false :=
    addToNode_empty_ok _ _
  have hres1 : (addToNode emptyNode (splitParts rOld.uri) rNew).2 = false :=
    addToNode_empty_ok _ _
  have hdup : (addToNode (addToNode emptyNode (splitParts rOld.uri) rOld).1
      (splitParts rOld.uri) rNew).2 = true := addToNode_dup_errors _ _ _ _ hres0
  have hm21 : (m2 == m1) = false := beq_eq_false_iff_ne.mpr (Ne.symm hm)
  have hm11 : (m1 == m1) = true := beq_self_eq_true m1
  have hstep0 : addRoute emptyNode rOld [m2] =
      (Node.mk [(m2, (addToNode emptyNode (splitParts rOld.uri) rOld).1)] none, none) := by
    simp [addRoute, emptyNode_children, emptyNode_route, assocGet, assocSet, hres0]
  rw [hstep0]
  constructor
  · simp [addRoute, assocGet, assocSet, Node.children, Node.route, hm21, h2, hres1, hdup]
  · simp [addRoute, assocGet, assocSet, Node.children, Node.route, hm21, hm11, h2,
      hres1, hdup]
    exact addToNode_getAt _ _ _ hres1

/-- C9 witness: the non-atomicity theorem applied at the concrete pattern `/w`,
first registered for POST, then re-registered for `["GET", "POST"]`. -/
theorem c9_addRoute_not_atomic_witness :
    ((addRoute (addRoute emptyNode rW9a ["POST"]).1 rW9b ["GET", "POST"]).2).isSome = true
    ∧ (assocGet ((addRoute (addRoute emptyNode rW9a ["POST"]).1 rW9b
        ["GET", "POST"]).1).children "GET").map
        (fun n => getAt n (splitParts rW9b.uri)) = some (some rW9b) :=
  c9_addRoute_not_atomic "GET" "POST" rW9a rW9b (by decide) rfl

/-- C4 counterexample. The claim asserts that exactly one of {handler ran to
completion, not-found hook ran, error hook ran} occurs per request, never two.
But the not-found hook is invoked inside the `try` block of `onRequest`, so
when the installed not-found hook itself raises — here on an unmatched path
against an empty tree — the `catch` additionally invokes the error hook: both
the not-found hook and the error hook run for the same request. -/
theorem c4_counterexample :
    (onRequestTrace true [] emptyNode "GET" "/missing" (fun _ => []) (fun _ => Beh.ok)
        Beh.raise).notFoundRan = true
    ∧ (onRequestTrace true [] emptyNode "GET" "/missing" (fun _ => []) (fun _ => Beh.ok)
        Beh.raise).errorRan = true := by
  refine ⟨by decide, by decide⟩

/-- C4 amended: provided the installed not-found hook completes without
raising, exactly one of {the matched route's handler ran to completion, the
not-found hook ran, the error hook ran} occurs per request — in particular a
raising handler or middleware causes exactly one error-hook invocation and
zero not-found invocations, and an unmatched path causes exactly one not-found
invocation and zero error invocations. When the not-found hook itself raises,
the error hook also runs: a not-found invocation without an error-hook
invocation is then impossible, and on an unmatched path both hooks run. -/
theorem c4_amended :
    (∀ (hu : Bool) (globals : List Beh) (tree : Node) (method url : String)
        (rmws : Nat → List Beh) (act : Nat → Beh),
      exactlyOneOutcome (onRequestTrace hu globals tree method url rmws act Beh.ok) = true)
    ∧ (∀ (hu : Bool) (globals : List Beh) (tree : Node) (method url : String)
        (rmws : Nat → List Beh) (act : Nat → Beh),
      ((onRequestTrace hu globals tree method url rmws act Beh.raise).notFoundRan
        && !(onRequestTrace hu globals tree method url rmws act Beh.raise).errorRan) = false)
    ∧ onRequestTrace true [] emptyNode "GET" "/missing" (fun _ => []) (fun _ => Beh.ok)
        Beh.raise = Trace.mk false true true := by
  refine ⟨?_, ?_, by decide⟩
  · intro hu globals tree method url rmws act
    unfold onRequestTrace
    cases hu with
    | false => simp [runNotFound, exactlyOneOutcome]
    | true =>
      rw [if_neg (by simp)]
      cases hg : allOk globals with
      | false => simp [hg, exactlyOneOutcome]
      | true =>
        rw [if_neg (by simp [hg])]
        cases hfr : findRoute tree method (stripQuery url) with
        | none => simp [hfr, runNotFound, exactlyOneOutcome]
        | some mm =>
          simp only [hfr]
          cases hr : allOk (rmws mm.1.rid) with
          | false => simp [hr, exactlyOneOutcome]
          | true =>
            rw [if_neg (by simp [hr])]
            cases act mm.1.rid with
            | ok => simp [exactlyOneOutcome]
            | raise => simp [exactlyOneOutcome]
  · intro hu globals tree method url rmws act
    unfold onRequestTrace
    cases hu with
    | false => simp [runNotFound]
    | true =>
      rw [if_neg (by simp)]
      cases hg : allOk globals with
      | false => simp [hg]
      | true =>
        rw [if_neg (by simp [hg])]
        cases hfr : findRoute tree method (stripQuery url) with
        | none => simp [hfr, runNotFound]
        | some mm =>
          simp only [hfr]
          cases hr : allOk (rmws mm.1.rid) with
          | false => simp [hr]
          | true =>
            rw [if_neg (by simp [hr])]
            cases act mm.1.rid with
            | ok => simp
            | raise => simp

/-- C10: `findRoute` depends on the request path only through its list of
non-empty slash-separated segments, so any two paths with equal segment lists
(paths differing in leading, trailing or duplicated slashes) produce the same
result — same route and same parameter bindings. -/
theorem c10_empty_segment_invariance (root : Node) (m p1 p2 : String)
    (h : splitParts p1 = splitParts p2) :
    findRoute root m p1 = findRoute root m p2 := by
  unfold findRoute
  rw [h]

/-- C10 witness: the invariance theorem applied to the concrete paths
`//a//b/` and `/a/b` on a trie holding `/a/b`. -/
theorem c10_empty_segment_invariance_witness :
    splitParts "//a//b/" = splitParts "/a/b"
    ∧ findRoute treeC10 "GET" "//a//b/" = findRoute treeC10 "GET" "/a/b" :=
  ⟨by decide, c10_empty_segment_invariance treeC10 "GET" "//a//b/" "/a/b" (by decide)⟩

end CircuitRouter
